import Mathlib

/-!
# Verification of the RisWidget renderer core

Shallow embedding of the renderer defined in `src/cpp/View.h` (class
`Renderer`): the pure image-extrema scan, the cross-thread request API
(`updateView`, `showImage`, `setHistogramBinCount`) with its queued-message
debounce state machine, the GPU-side slots (`newImageSlot`,
`setHistogramBinCountSlot`) with their resource-teardown helpers, the
extrema-future lifecycle consulted by `execImageDraw`, and the cached
uniform uploads of the image-draw program.

Modelling conventions:
- 16-bit image samples (`GLushort`) are `Nat` with an explicit `< 65536`
  bound where the domain matters; `QSize` dimensions are `Int`.
- GPU object handles (`GLuint` names) are `Option Nat`: `none` stands for
  the sentinel `std::numeric_limits of GLuint :: max()` meaning
  "unallocated"; `glGenTextures` draws a fresh name from a counter.
- Calls to `glDeleteTextures` are recorded in a ghost list `deleted` so
  that "the texture was deleted" is observable in the final state.
- Exceptions (`RisWidgetException`) are `Except String`: the functions
  return `.error msg` before touching any state, matching the C++ throw
  sites which precede every mutation.
- Qt queued signal/slot connections are an explicit FIFO message list.
-/

namespace RisWidget

/-! ## findImageExtrema (View.h, lines 474-500) -/

/-- One iteration of the scan loop in `Renderer::findImageExtrema`:
`if(p < ret.first) ret.first = p; else if(p > ret.second) ret.second = p;`.
Note the `else if`: an element that updates the running min skips the max
comparison. -/
def extremaStep (ret : Nat × Nat) (p : Nat) : Nat × Nat :=
  if p < ret.1 then (p, ret.2)
  else if p > ret.2 then (ret.1, p)
  else ret

/-- `Renderer::findImageExtrema(ImageData imageData)`: starts from
`ret{65535, 0}`; a single-element image is special-cased to
`(imageData[0], imageData[0])`; otherwise the if/else-if scan runs over all
samples. -/
def findImageExtrema (imageData : List Nat) : Nat × Nat :=
  if imageData.length = 1 then
    (imageData.headD 0, imageData.headD 0)
  else
    imageData.foldl extremaStep (65535, 0)

/-- The true minimum of a sample sequence (0 for an empty sequence). -/
def sampleMin : List Nat → Nat
  | [] => 0
  | x :: rest => rest.foldl min x

/-- The true maximum of a sample sequence. -/
def sampleMax (l : List Nat) : Nat := l.foldl max 0

/-! ## Cross-thread request API and debounce state machine
(View.h: `updateView` lines 164-186, `showImage` lines 188-211,
`setHistogramBinCount` lines 213-216, `updateViewSlot` lines 746-766,
constructor lines 130-157) -/

/-- The two logical redraw targets owned by the renderer: the image view
and the histogram view. -/
inductive Target
  | image
  | histogram
deriving DecidableEq, Repr

/-- The `View*` argument of `Renderer::updateView`: the image view pointer,
the histogram view pointer, or some unrelated view. -/
inductive ViewArg
  | image
  | histogram
  | other
deriving DecidableEq, Repr

/-- The known target a `ViewArg` refers to, for the two valid cases. -/
def viewArgOf : Target → ViewArg
  | .image => .image
  | .histogram => .histogram

/-- Messages carried by the three `Qt::QueuedConnection` signal/slot pairs
set up in the `Renderer` constructor: `_updateView` -> `updateViewSlot`,
`_newImage` -> `newImageSlot`, `_setHistogramBinCount` ->
`setHistogramBinCountSlot`. -/
inductive Msg
  | updateViewM (t : Target)
  | newImageM (d : List Nat) (w h : Int) (filt : Bool)
  | setHistogramBinCountM (n : Nat)
deriving DecidableEq, Repr

/-- The caller-visible renderer state guarded by `m_lock`: the two
per-target update-pending flags, whether each view's `m_context` exists
(created by `makeContexts`), the queue of pending cross-thread messages,
and the extrema future slot (`m_imageExtremaFuture`, holding the result of
`findImageExtrema` for the image it was started on, or `none` for a
default-constructed / consumed future). -/
structure ReqState where
  imageViewUpdatePending : Bool
  histogramViewUpdatePending : Bool
  imageViewCtx : Bool
  histogramViewCtx : Bool
  msgQueue : List Msg
  imageExtremaFuture : Option (Nat × Nat)
deriving DecidableEq, Repr

/-- The update-pending flag selected by `updateView` for a known target
(`m_imageViewUpdatePending` / `m_histogramViewUpdatePending`). -/
def pendingOf (s : ReqState) : Target → Bool
  | .image => s.imageViewUpdatePending
  | .histogram => s.histogramViewUpdatePending

/-- Whether the target view's `m_context` exists. -/
def ctxOf (s : ReqState) : Target → Bool
  | .image => s.imageViewCtx
  | .histogram => s.histogramViewCtx

/-- Write the selected update-pending flag. -/
def setPending (s : ReqState) : Target → Bool → ReqState
  | .image, b => { s with imageViewUpdatePending := b }
  | .histogram, b => { s with histogramViewUpdatePending := b }

/-- Mark the target view's context as created (`Renderer::makeContexts`). -/
def setCtx (s : ReqState) : Target → ReqState
  | .image => { s with imageViewCtx := true }
  | .histogram => { s with histogramViewCtx := true }

/-- Body of `Renderer::updateView` for a known target: under the lock,
`if(!*updatePending && view->m_context) { *updatePending = true;
emit _updateView(view); }`. -/
def updateViewKnown (t : Target) (s : ReqState) : ReqState :=
  if pendingOf s t = false ∧ ctxOf s t = true then
    setPending { s with msgQueue := s.msgQueue ++ [Msg.updateViewM t] } t true
  else s

/-- `Renderer::updateView(View* view)`: selects the pending flag for the
image or histogram view; any other view raises `RisWidgetException` before
any state is touched. -/
def updateView (v : ViewArg) (s : ReqState) : Except String ReqState :=
  match v with
  | .image => .ok (updateViewKnown .image s)
  | .histogram => .ok (updateViewKnown .histogram s)
  | .other =>
      .error "Renderer::updateView(View* view): View argument refers to neither image nor histogram view."

/-- `Renderer::showImage(imageData, imageSize, filter)`: non-empty data
with a dimension <= 0 raises `RisWidgetException` before any state is
touched; otherwise non-empty data starts a fresh extrema future under the
lock, empty data replaces the future with a default-constructed (invalid)
one; in both accepted cases `_newImage` is emitted. -/
def showImage (imageData : List Nat) (w h : Int) (filt : Bool)
    (s : ReqState) : Except String ReqState :=
  if imageData ≠ [] then
    if w ≤ 0 ∨ h ≤ 0 then
      .error "Renderer::showImage: imageData is not empty, but at least one dimension of imageSize is less than or equal to zero."
    else
      .ok { s with imageExtremaFuture := some (findImageExtrema imageData),
                   msgQueue := s.msgQueue ++ [Msg.newImageM imageData w h filt] }
  else
    .ok { s with imageExtremaFuture := none,
                 msgQueue := s.msgQueue ++ [Msg.newImageM imageData w h filt] }

/-- `Renderer::updateViewSlot(View* view)` for a known target: under the
lock, if the target's pending flag is set, clear it and execute the draw
(the draw itself touches none of these fields). -/
def updateViewSlot (t : Target) (s : ReqState) : ReqState :=
  if pendingOf s t then setPending s t false else s

/-- Deliver the head message of the queue to its slot.  `newImageM` and
`setHistogramBinCountM` run `newImageSlot` / `setHistogramBinCountSlot`,
which mutate the GPU-side state modeled below by `GpuState` and leave
these fields alone. -/
def procOne (s : ReqState) : ReqState :=
  match s.msgQueue with
  | [] => s
  | Msg.updateViewM t :: rest => updateViewSlot t { s with msgQueue := rest }
  | Msg.newImageM _ _ _ _ :: rest => { s with msgQueue := rest }
  | Msg.setHistogramBinCountM _ :: rest => { s with msgQueue := rest }

/-- On an exception the caller's state is unchanged (the throw happens
before any mutation). -/
def applyExcept (r : Except String ReqState) (s : ReqState) : ReqState :=
  match r with
  | .ok s' => s'
  | .error _ => s

/-- Whether a request was accepted (no exception). -/
def isAccepted (r : Except String ReqState) : Bool :=
  match r with
  | .ok _ => true
  | .error _ => false

/-- Externally triggerable events: an `updateView` call, a `showImage`
call, a `setHistogramBinCount` call (which only emits its message, View.h
lines 213-216), delivery of the next queued message on the renderer
thread, and context creation (`makeContexts`). -/
inductive REvent
  | up (v : ViewArg)
  | showImg (d : List Nat) (w h : Int) (filt : Bool)
  | setBin (n : Nat)
  | proc
  | mkCtx (t : Target)

/-- One step of the cross-thread request machine. -/
def stepReq (s : ReqState) : REvent → ReqState
  | .up v => applyExcept (updateView v s) s
  | .showImg d w h filt => applyExcept (showImage d w h filt s) s
  | .setBin n => { s with msgQueue := s.msgQueue ++ [Msg.setHistogramBinCountM n] }
  | .proc => procOne s
  | .mkCtx t => setCtx s t

/-- Constructor state: both pending flags clear, no contexts, no queued
messages, default-constructed (invalid) extrema future. -/
def initReq : ReqState :=
  { imageViewUpdatePending := false
    histogramViewUpdatePending := false
    imageViewCtx := false
    histogramViewCtx := false
    msgQueue := []
    imageExtremaFuture := none }

/-- Run a sequence of events from the constructor state. -/
def runReq (es : List REvent) : ReqState := es.foldl stepReq initReq

/-- Recognize a queued `_updateView` message for the given target. -/
def isUpdMsg (t : Target) : Msg → Bool
  | Msg.updateViewM t' => decide (t' = t)
  | _ => false

/-- Number of `_updateView` draw messages pending in the queue for the
given target. -/
def drawMsgCount (s : ReqState) (t : Target) : Nat :=
  (s.msgQueue.filter (isUpdMsg t)).length

/-- Debounce invariant: for each target, the number of queued draw
messages is 1 when its update-pending flag is set and 0 when it is
clear. -/
def ReqInv (s : ReqState) : Prop :=
  ∀ t : Target, drawMsgCount s t = (if pendingOf s t then 1 else 0)

/-! ## GPU-side renderer state and slots
(View.h: `delImage` lines 231-241, `delHistogramBlocks` lines 243-250,
`delHistogram` lines 252-266, `execHistoCalc` lines 344-395,
`execHistoConsolidate` lines 397-459, `execHistoDraw` lines 661-729,
`newImageSlot` lines 768-813, `setHistogramBinCountSlot` lines 815-833) -/

/-- The renderer-thread GPU state: the retained image data and size, the
texture handles (`m_image`, `m_histogramBlocks`, `m_histogram`) and the
histogram draw program's point geometry (`pointVao`, `pointVaoBuff`), the
bin count and CPU-side histogram buffer.  `none` is the sentinel
"unallocated" handle value; `nextName` feeds `glGenTextures`; `deleted`
is a ghost log of every name passed to a GL delete call. -/
structure GpuState where
  imageData : List Nat
  imageW : Int
  imageH : Int
  image : Option Nat
  histogramBlocks : Option Nat
  histogram : Option Nat
  pointVao : Option Nat
  pointVaoBuff : Option Nat
  histogramBinCount : Nat
  histogramData : List Nat
  nextName : Nat
  deleted : List Nat
deriving DecidableEq, Repr

/-- `Renderer::delImage`: if the image texture is allocated, clear the
retained image data, delete the texture, reset the handle to the sentinel
and zero the stored size; otherwise do nothing. -/
def delImage (s : GpuState) : GpuState :=
  match s.image with
  | some t =>
      { s with imageData := [], deleted := t :: s.deleted, image := none,
               imageW := 0, imageH := 0 }
  | none => s

/-- `Renderer::delHistogramBlocks`: if the block-histogram texture array is
allocated, delete it and reset the handle to the sentinel. -/
def delHistogramBlocks (s : GpuState) : GpuState :=
  match s.histogramBlocks with
  | some t => { s with deleted := t :: s.deleted, histogramBlocks := none }
  | none => s

/-- `Renderer::delHistogram`: if the consolidated histogram texture is
allocated, delete it and reset the handle, and also destroy the histogram
draw program's point vertex array and buffer (their GL deletes are elided
from the texture ghost log; the handle resets are kept). -/
def delHistogram (s : GpuState) : GpuState :=
  match s.histogram with
  | some t =>
      { s with deleted := t :: s.deleted, histogram := none,
               pointVao := none, pointVaoBuff := none }
  | none => s

/-- CPU-visible effect of `Renderer::execHistoCalc`: lazily allocate the
block-histogram texture array when absent.  Zeroing the block texture, the
uniform setup and the compute dispatch live on the GPU and touch no field
modeled here. -/
def execHistoCalc (s : GpuState) : GpuState :=
  match s.histogramBlocks with
  | none => { s with histogramBlocks := some s.nextName, nextName := s.nextName + 1 }
  | some _ => s

/-- `std::vector::resize(n, 0)`: truncate or extend with zeros to length
`n`. -/
def resizeTo (l : List Nat) (n : Nat) : List Nat :=
  l.take n ++ List.replicate (n - l.length) 0

/-- The part of `Renderer::execHistoConsolidate` that runs before the
compute dispatch: lazily allocate the consolidated histogram texture when
absent; resize the CPU-side histogram buffer to the bin count when its
length differs; zero it out (`std::fill`) and upload the zeros. -/
def execHistoConsolidatePre (s : GpuState) : GpuState :=
  let s1 :=
    match s.histogram with
    | none => { s with histogram := some s.nextName, nextName := s.nextName + 1 }
    | some _ => s
  let d1 :=
    if s1.histogramData.length ≠ s1.histogramBinCount then
      resizeTo s1.histogramData s1.histogramBinCount
    else s1.histogramData
  { s1 with histogramData := List.replicate d1.length 0 }

/-- `Renderer::execHistoConsolidate`: after the pre-dispatch setup, the
consolidate compute shader runs (its GLSL source is outside this
repository slice, so its output is taken as the parameter `gpuHist`) and
`glGetTexImage` reads the consolidated bins back into the CPU-side
buffer. -/
def execHistoConsolidate (s : GpuState) (gpuHist : List Nat) : GpuState :=
  let s1 := execHistoConsolidatePre s
  { s1 with histogramData := gpuHist }

/-- CPU-visible effect of `Renderer::execHistoDraw`: when an image is
loaded and the point vertex array is absent, lazily build the point VAO
and its buffer; everything else is GPU drawing. -/
def execHistoDraw (s : GpuState) : GpuState :=
  if s.imageData ≠ [] then
    match s.pointVao with
    | none =>
        { s with pointVao := some s.nextName, pointVaoBuff := some (s.nextName + 1),
                 nextName := s.nextName + 2 }
    | some _ => s
  else s

/-- The teardown guard at the top of `Renderer::newImageSlot`:
`if(!m_imageData.empty() && (imageData.empty() || m_imageSize != imageSize))
{ delImage(); delHistogramBlocks(); }`. -/
def newImageTeardown (d : List Nat) (w h : Int) (s : GpuState) : GpuState :=
  if s.imageData ≠ [] ∧ (d = [] ∨ ¬(s.imageW = w ∧ s.imageH = h)) then
    delHistogramBlocks (delImage s)
  else s

/-- The adoption step of `Renderer::newImageSlot` for non-empty data:
store the new data and size, and lazily allocate the image texture when
absent (the sample upload and filter-mode selection are GPU-side; the
filter flag only picks GL_LINEAR or GL_NEAREST). -/
def newImageAdopt (d : List Nat) (w h : Int) (s1 : GpuState) : GpuState :=
  let s1a := { s1 with imageData := d, imageW := w, imageH := h }
  match s1a.image with
  | none => { s1a with image := some s1a.nextName, nextName := s1a.nextName + 1 }
  | some _ => s1a

/-- `Renderer::newImageSlot(imageData, imageSize, filter)`: conditional
teardown of the previous image; for non-empty data, adopt the new data and
rerun the histogram pipeline (calc + consolidate); always finish by
drawing both views (`execImageDraw` changes none of these fields,
`execHistoDraw` lazily builds the point geometry). -/
def newImageSlot (d : List Nat) (w h : Int) (filt : Bool)
    (gpuHist : List Nat) (s : GpuState) : GpuState :=
  execHistoDraw
    (if d ≠ [] then
      execHistoConsolidate (execHistoCalc (newImageAdopt d w h (newImageTeardown d w h s))) gpuHist
    else newImageTeardown d w h s)

/-- The teardown prefix of `Renderer::setHistogramBinCountSlot`:
`delHistogramBlocks(); delHistogram(); m_histogramBinCount = n;`. -/
def setBinCountTeardown (n : Nat) (s : GpuState) : GpuState :=
  { delHistogram (delHistogramBlocks s) with histogramBinCount := n }

/-- `Renderer::setHistogramBinCountSlot(n)`: when the requested count
differs from the current one, tear down the block and consolidated
histogram resources, adopt the new count, and — only if an image is
loaded — rerun calc, consolidate and the histogram draw. -/
def setHistogramBinCountSlot (n : Nat) (gpuHist : List Nat) (s : GpuState) : GpuState :=
  if n ≠ s.histogramBinCount then
    let s2 := setBinCountTeardown n s
    if s2.imageData ≠ [] then
      execHistoDraw (execHistoConsolidate (execHistoCalc s2) gpuHist)
    else s2
  else s

/-- A concrete GPU state with a loaded 1×1 image and every histogram
resource allocated, for evaluating the slots on explicit inputs. -/
def loadedGpuState : GpuState :=
  { imageData := [5], imageW := 1, imageH := 1, image := some 10,
    histogramBlocks := some 11, histogram := some 12, pointVao := some 13,
    pointVaoBuff := some 14, histogramBinCount := 2, histogramData := [1, 0],
    nextName := 20, deleted := [] }

/-- A concrete GPU state after a previously shown image was cleared: no
image loaded, histogram buffer still holding the stale counts of the old
image. -/
def clearedGpuState : GpuState :=
  { imageData := [], imageW := 0, imageH := 0, image := none,
    histogramBlocks := none, histogram := none, pointVao := none,
    pointVaoBuff := none, histogramBinCount := 2, histogramData := [7, 7],
    nextName := 20, deleted := [] }

/-! ## Extrema-future lifecycle
(View.h: `showImage` lines 188-211, `execImageDraw` lines 578-589) -/

/-- The future-related renderer state with ghost instrumentation: each
non-empty `showImage` call stamps its image with a fresh id drawn from
`nextId`; `future` models `m_imageExtremaFuture` (the stamped image id
together with the `findImageExtrema` result the future will deliver);
`extrema` is the cached `m_imageExtrema`, `extremaSrc` the ghost id of the
image it came from, and `consulted` the ghost log of ids whose future was
retrieved (`.get()`) by `execImageDraw`. -/
structure FutState where
  nextId : Nat
  future : Option (Nat × (Nat × Nat))
  extrema : Nat × Nat
  extremaSrc : Option Nat
  consulted : List Nat
deriving DecidableEq, Repr

/-- Future-relevant events: `showImage` with non-empty data, `showImage`
with empty data (the clearing call), and `execImageDraw` with the
automatic min/max mode on or off. -/
inductive FEvent
  | showData (d : List Nat)
  | clear
  | draw (auto : Bool)

/-- One future-lifecycle step.  `show d` replaces the future handle with a
fresh one for `d` under the lock; `clear` replaces it with a
default-constructed future; `draw true` retrieves a valid future exactly
once (`std::future::get` invalidates it) into the cached extrema, and uses
the cache when the future is invalid; `draw false` ignores the future. -/
def stepFut (s : FutState) : FEvent → FutState
  | .showData d =>
      { s with nextId := s.nextId + 1,
               future := some (s.nextId, findImageExtrema d) }
  | .clear => { s with future := none }
  | .draw true =>
      match s.future with
      | some (i, e) =>
          { s with future := none, extrema := e, extremaSrc := some i,
                   consulted := i :: s.consulted }
      | none => s
  | .draw false => s

/-- Initial future state: invalid future, nothing consulted, cached
extrema default-initialized. -/
def initFut : FutState :=
  { nextId := 0, future := none, extrema := (0, 0), extremaSrc := none, consulted := [] }

/-- Run a sequence of future-lifecycle events. -/
def runFut (es : List FEvent) : FutState := es.foldl stepFut initFut

/-! ## Cached uniform uploads in execImageDraw
(View.h, lines 628-642) -/

/-- A `glUniform1f` upload of one of the gamma-transform parameters. -/
inductive GtpUpload
  | minU (v : Nat)
  | maxU (v : Nat)
  | gammaU (v : Nat)
deriving DecidableEq, Repr

/-- The image-draw program's cached gamma-transform uniform state:
`gtpMin`/`gtpMax`/`gtpGamma` are the last-set values cached in the program
object, `boundMin`/`boundMax`/`boundGamma` are ghost copies of the values
actually bound on the GPU, and `uploads` is the ghost log of issued
uniform uploads. -/
structure ImageDrawProg where
  gtpMin : Option Nat
  gtpMax : Option Nat
  gtpGamma : Option Nat
  boundMin : Option Nat
  boundMax : Option Nat
  boundGamma : Option Nat
  uploads : List GtpUpload
deriving DecidableEq, Repr

/-- Modelled from the spec: the initial cached uniform values live in
`GlProgram.h`, which is not part of this repository slice; per spec §3 the
caches hold "last-set values", so a freshly built program has no last-set
value and nothing yet bound on the GPU. -/
def initImageDrawProg : ImageDrawProg :=
  { gtpMin := none, gtpMax := none, gtpGamma := none,
    boundMin := none, boundMax := none, boundGamma := none, uploads := [] }

/-- The uniform-diffing section of `Renderer::execImageDraw`: for each of
min, max and gamma in that order, `if(v != cached) { glUniform1f(...);
cached = v; }`. -/
def setGtpUniforms (p : ImageDrawProg) (mn mx g : Nat) : ImageDrawProg :=
  let p1 :=
    if some mn ≠ p.gtpMin then
      { p with uploads := p.uploads ++ [GtpUpload.minU mn],
               boundMin := some mn, gtpMin := some mn }
    else p
  let p2 :=
    if some mx ≠ p1.gtpMax then
      { p1 with uploads := p1.uploads ++ [GtpUpload.maxU mx],
                boundMax := some mx, gtpMax := some mx }
    else p1
  if some g ≠ p2.gtpGamma then
    { p2 with uploads := p2.uploads ++ [GtpUpload.gammaU g],
              boundGamma := some g, gtpGamma := some g }
  else p2

/-- The gamma uploads in an upload log. -/
def gammaUploads (l : List GtpUpload) : List Nat :=
  l.filterMap fun u =>
    match u with
    | GtpUpload.gammaU v => some v
    | _ => none

/-- The min uploads in an upload log. -/
def minUploads (l : List GtpUpload) : List Nat :=
  l.filterMap fun u =>
    match u with
    | GtpUpload.minU v => some v
    | _ => none

/-- The max uploads in an upload log. -/
def maxUploads (l : List GtpUpload) : List Nat :=
  l.filterMap fun u =>
    match u with
    | GtpUpload.maxU v => some v
    | _ => none

/-! ## Theorems -/

/-- The first component of the scan accumulator evolves exactly as a
running minimum, independently of the second component. -/
theorem extremaStep_fst_foldl (xs : List Nat) :
    ∀ m M : Nat, (xs.foldl extremaStep (m, M)).1 = xs.foldl min m := by
  induction xs with
  | nil => intro m M; rfl
  | cons x xs ih =>
    intro m M
    have hfst : (extremaStep (m, M) x).1 = min m x := by
      unfold extremaStep
      by_cases h1 : x < m
      · simp [h1, Nat.min_eq_right (Nat.le_of_lt h1)]
      · by_cases h2 : x > M <;>
          simp [h1, h2, Nat.min_eq_left (Nat.le_of_not_lt h1)]
    have hsplit : extremaStep (m, M) x = ((extremaStep (m, M) x).1, (extremaStep (m, M) x).2) := rfl
    calc ((x :: xs).foldl extremaStep (m, M)).1
        = (xs.foldl extremaStep (extremaStep (m, M) x)).1 := rfl
      _ = xs.foldl min (extremaStep (m, M) x).1 := by
            rw [hsplit]; exact ih _ _
      _ = xs.foldl min (min m x) := by rw [hfst]
      _ = (x :: xs).foldl min m := rfl

/-- C2: there is a sequence of at least two 16-bit samples on which
`findImageExtrema` reports a max strictly below the true maximum: on
`[5, 3]` both elements update the running min, the else-if skips every max
comparison, and the reported max stays at its initial 0 while the true
maximum is 5. -/
theorem findImageExtrema_max_undercount :
    ∃ xs : List Nat, 2 ≤ xs.length ∧ (∀ x ∈ xs, x < 65536) ∧
      (findImageExtrema xs).2 < sampleMax xs := by
  refine ⟨[5, 3], ?_, ?_, ?_⟩ <;> decide

/-- C8: `findImageExtrema [5] = (5, 5)`, `findImageExtrema [3,1,4,1,5] =
(1, 5)`, and on every single-sample image the special case returns the
sole sample as both min and max. -/
theorem findImageExtrema_examples :
    findImageExtrema [5] = (5, 5)
    ∧ findImageExtrema [3, 1, 4, 1, 5] = (1, 5)
    ∧ ∀ p : Nat, p < 65536 → findImageExtrema [p] = (p, p) := by
  refine ⟨by decide, by decide, ?_⟩
  intro p _
  rfl

/-- C8 witness: the single-sample case evaluated at `p = 7`. -/
theorem findImageExtrema_examples_check :
    (7 : Nat) < 65536 ∧ findImageExtrema [7] = (7, 7) :=
  ⟨by decide, findImageExtrema_examples.2.2 7 (by decide)⟩

/-- C10: on every non-empty sequence of 16-bit samples the first component
returned by `findImageExtrema` is the true minimum: the min branch of the
scan is never skipped, so only the max can be affected by the else-if
defect. -/
theorem findImageExtrema_min_correct (xs : List Nat)
    (hne : xs ≠ []) (hbound : ∀ x ∈ xs, x < 65536) :
    (findImageExtrema xs).1 = sampleMin xs := by
  match xs, hne with
  | x :: rest, _ =>
    by_cases hlen : (x :: rest).length = 1
    · have hrest : rest = [] := by
        cases rest with
        | nil => rfl
        | cons y ys => simp [List.length] at hlen
      subst hrest
      simp [findImageExtrema, sampleMin]
    · have hx : x < 65536 := hbound x (List.mem_cons_self x rest)
      have hx' : min 65535 x = x :=
        Nat.min_eq_right (Nat.le_of_lt_succ hx)
      have hrest : rest ≠ [] := by
        intro h
        subst h
        exact hlen rfl
      calc (findImageExtrema (x :: rest)).1
          = ((x :: rest).foldl extremaStep (65535, 0)).1 := by
            simp [findImageExtrema, hlen, hrest]
        _ = (x :: rest).foldl min 65535 := extremaStep_fst_foldl _ _ _
        _ = rest.foldl min (min 65535 x) := rfl
        _ = rest.foldl min x := by rw [hx']
        _ = sampleMin (x :: rest) := rfl

/-- C10 witness: the minimum of `[3, 1, 4]` is reported correctly. -/
theorem findImageExtrema_min_correct_check :
    (findImageExtrema [3, 1, 4]).1 = sampleMin [3, 1, 4] :=
  findImageExtrema_min_correct [3, 1, 4] (by decide) (by decide)

/-- C1 counterexample: `showImage` with the non-empty 3-sample data and a
2×2 size (so length 3 ≠ 4 = width*height) is accepted rather than
rejected, and it mutates the renderer state (the extrema future is
replaced and a `_newImage` message enqueued). -/
theorem showImage_accepts_mismatched_length :
    isAccepted (showImage [1, 2, 3] 2 2 false initReq) = true
    ∧ ([1, 2, 3] : List Nat).length ≠ 2 * 2
    ∧ applyExcept (showImage [1, 2, 3] 2 2 false initReq) initReq ≠ initReq := by
  decide

/-- C1 (amended): `showImage` rejects a request with an error exactly when
the data is non-empty and a dimension is nonpositive; rejection returns
before any state is touched.  The `length = width*height` relation is not
validated, so a non-empty request with mismatched length and positive
dimensions is accepted. -/
theorem showImage_reject_iff (d : List Nat) (w h : Int) (filt : Bool) (s : ReqState) :
    isAccepted (showImage d w h filt s) = false ↔ d ≠ [] ∧ (w ≤ 0 ∨ h ≤ 0) := by
  unfold showImage
  by_cases hd : d = []
  · simp [hd, isAccepted]
  · by_cases hwh : w ≤ 0 ∨ h ≤ 0 <;> simp [hd, hwh, isAccepted]

/-- C4: `updateView` on a view that is neither the image nor the histogram
view returns the `RisWidgetException` synchronously to the caller, and
`showImage` with non-empty data and a nonpositive dimension does likewise;
in both cases the error is produced before any field of the renderer state
is mutated (the functions return only the error). -/
theorem requests_reject_synchronously (s : ReqState) (d : List Nat)
    (w h : Int) (filt : Bool) :
    updateView ViewArg.other s
      = .error "Renderer::updateView(View* view): View argument refers to neither image nor histogram view."
    ∧ (d ≠ [] → w ≤ 0 ∨ h ≤ 0 →
        showImage d w h filt s
          = .error "Renderer::showImage: imageData is not empty, but at least one dimension of imageSize is less than or equal to zero.") := by
  refine ⟨rfl, ?_⟩
  intro hd hwh
  simp [showImage, hd, hwh]

/-- C4 witness: the two rejection cases at concrete inputs (an unrelated
view; 1-sample data with width 0). -/
theorem requests_reject_synchronously_check :
    updateView ViewArg.other initReq
      = .error "Renderer::updateView(View* view): View argument refers to neither image nor histogram view."
    ∧ showImage [1] 0 5 false initReq
      = .error "Renderer::showImage: imageData is not empty, but at least one dimension of imageSize is less than or equal to zero." :=
  ⟨(requests_reject_synchronously initReq [1] 0 5 false).1,
   (requests_reject_synchronously initReq [1] 0 5 false).2 (by decide) (by decide)⟩

/-- Appending a message changes a target's draw-message count by 1 exactly
when the message is a draw message for that target. -/
theorem drawMsgCount_append (q : List Msg) (m : Msg) (t : Target) :
    ((q ++ [m]).filter (isUpdMsg t)).length
      = (q.filter (isUpdMsg t)).length + (if isUpdMsg t m then 1 else 0) := by
  by_cases h : isUpdMsg t m <;> simp [List.filter_append, List.filter, h]

/-- `updateViewKnown` preserves the debounce invariant. -/
theorem updateViewKnown_inv (t : Target) (s : ReqState) (h : ReqInv s) :
    ReqInv (updateViewKnown t s) := by
  unfold updateViewKnown
  by_cases hc : pendingOf s t = false ∧ ctxOf s t = true
  · rw [if_pos hc]
    intro t'
    have ht := h t
    have ht' := h t'
    cases t <;> cases t' <;>
      simp_all [drawMsgCount, pendingOf, setPending, isUpdMsg,
        List.filter_append, List.filter]
  · rw [if_neg hc]
    exact h

/-- `procOne` preserves the debounce invariant. -/
theorem procOne_inv (s : ReqState) (h : ReqInv s) : ReqInv (procOne s) := by
  cases hq : s.msgQueue with
  | nil =>
    have hps : procOne s = s := by simp [procOne, hq]
    rw [hps]
    exact h
  | cons m rest =>
    cases m with
    | updateViewM t =>
      have ht := h t
      rw [drawMsgCount, hq] at ht
      have htrue : isUpdMsg t (Msg.updateViewM t) = true := by
        simp [isUpdMsg]
      have hcount : (rest.filter (isUpdMsg t)).length + 1 = (if pendingOf s t then 1 else 0) := by
        simpa [List.filter, htrue] using ht
      have hpend : pendingOf s t = true := by
        cases hb : pendingOf s t with
        | false => simp [hb] at hcount
        | true => rfl
      have hrest0 : (rest.filter (isUpdMsg t)).length = 0 := by
        have h1 : (rest.filter (isUpdMsg t)).length + 1 = 1 := by
          simpa [hpend] using hcount
        omega
      intro t'
      have ht' := h t'
      rw [drawMsgCount, hq] at ht'
      have hpend' : pendingOf { s with msgQueue := rest } t = true := by
        cases t <;> simpa [pendingOf] using hpend
      have hps : procOne s = setPending { s with msgQueue := rest } t false := by
        simp [procOne, hq, updateViewSlot, hpend']
      rw [hps]
      by_cases heq : t' = t
      · subst heq
        cases t' <;>
          simpa [drawMsgCount, pendingOf, setPending] using hrest0
      · have hne : isUpdMsg t' (Msg.updateViewM t) = false := by
          cases t <;> cases t' <;> simp_all [isUpdMsg]
        rw [List.filter_cons_of_neg (by simp [hne])] at ht'
        cases t <;> cases t' <;>
          first
          | exact absurd rfl heq
          | simpa [drawMsgCount, pendingOf, setPending] using ht'
    | newImageM d w hh filt =>
      have hps : procOne s = { s with msgQueue := rest } := by simp [procOne, hq]
      rw [hps]
      intro t'
      have ht' := h t'
      rw [drawMsgCount, hq, List.filter_cons_of_neg (by simp [isUpdMsg])] at ht'
      cases t' <;> simpa [drawMsgCount, pendingOf] using ht'
    | setHistogramBinCountM n =>
      have hps : procOne s = { s with msgQueue := rest } := by simp [procOne, hq]
      rw [hps]
      intro t'
      have ht' := h t'
      rw [drawMsgCount, hq, List.filter_cons_of_neg (by simp [isUpdMsg])] at ht'
      cases t' <;> simpa [drawMsgCount, pendingOf] using ht'

/-- Every event of the request machine preserves the debounce invariant. -/
theorem stepReq_inv (s : ReqState) (e : REvent) (h : ReqInv s) :
    ReqInv (stepReq s e) := by
  cases e with
  | up v =>
    cases v with
    | image => exact updateViewKnown_inv .image s h
    | histogram => exact updateViewKnown_inv .histogram s h
    | other => exact h
  | showImg d w hh filt =>
    intro t
    have ht := h t
    simp only [stepReq, showImage]
    split_ifs with h1 h2 <;>
      cases t <;>
        simp_all [applyExcept, drawMsgCount, pendingOf,
          List.filter_append, List.filter, isUpdMsg]
  | setBin n =>
    intro t
    have ht := h t
    cases t <;>
      simp_all [stepReq, drawMsgCount, pendingOf,
        List.filter_append, List.filter, isUpdMsg]
  | proc => exact procOne_inv s h
  | mkCtx t =>
    intro t'
    have ht' := h t'
    cases t <;> cases t' <;>
      simp_all [stepReq, setCtx, drawMsgCount, pendingOf]

/-- `updateViewKnown` turns the pending flag from clear to set only when
the target view's context exists. -/
theorem updateViewKnown_sets_only_if (t : Target) (s : ReqState)
    (h0 : pendingOf s t = false) (h1 : pendingOf (updateViewKnown t s) t = true) :
    ctxOf s t = true := by
  by_cases hc : ctxOf s t = true
  · exact hc
  · exfalso
    rw [updateViewKnown, if_neg (by simp [hc])] at h1
    exact absurd h1 (by simp [h0])

/-- The debounce invariant holds in every reachable state. -/
theorem runReq_inv (es : List REvent) : ReqInv (runReq es) := by
  have hgen : ∀ (l : List REvent) (s : ReqState), ReqInv s → ReqInv (l.foldl stepReq s) := by
    intro l
    induction l with
    | nil => intro s hs; exact hs
    | cons e l ih =>
      intro s hs
      exact ih (stepReq s e) (stepReq_inv s e hs)
  exact hgen es initReq (by intro t; cases t <;> rfl)

/-- C3: in every state reachable from the constructor state, at most one
`_updateView` draw message per target is queued; a call to `updateView`
while the target is already pending leaves the state (hence the message
queue) unchanged; the pending flag goes from clear to set only when the
target's context exists; and delivering the queued draw message clears the
flag. -/
theorem updateView_debounce (es : List REvent) (t : Target) :
    drawMsgCount (runReq es) t ≤ 1
    ∧ (pendingOf (runReq es) t = true →
        stepReq (runReq es) (REvent.up (viewArgOf t)) = runReq es)
    ∧ (pendingOf (runReq es) t = false →
        pendingOf (stepReq (runReq es) (REvent.up (viewArgOf t))) t = true →
        ctxOf (runReq es) t = true)
    ∧ (∀ rest, (runReq es).msgQueue = Msg.updateViewM t :: rest →
        pendingOf (procOne (runReq es)) t = false) := by
  refine ⟨?_, ?_, ?_, ?_⟩
  · rw [runReq_inv es t]
    split <;> omega
  · intro hp
    cases t <;>
      simp_all [stepReq, updateView, viewArgOf, applyExcept, updateViewKnown, pendingOf]
  · intro h0 h1
    cases t <;> exact updateViewKnown_sets_only_if _ _ h0 h1
  · intro rest hq
    have hps : procOne (runReq es) = updateViewSlot t { runReq es with msgQueue := rest } := by
      simp [procOne, hq]
    rw [hps]
    unfold updateViewSlot
    by_cases hp : pendingOf { runReq es with msgQueue := rest } t = true
    · rw [if_pos hp]
      cases t <;> simp [setPending, pendingOf]
    · rw [if_neg hp]
      simpa using hp

/-- C3 witness: after creating the image context and requesting one image
redraw, the queue holds one draw message, a second request changes
nothing, the flag was set with the context present, and delivering the
message clears the flag. -/
theorem updateView_debounce_check :
    drawMsgCount (runReq [REvent.mkCtx Target.image, REvent.up ViewArg.image]) Target.image ≤ 1
    ∧ stepReq (runReq [REvent.mkCtx Target.image, REvent.up ViewArg.image])
        (REvent.up (viewArgOf Target.image))
        = runReq [REvent.mkCtx Target.image, REvent.up ViewArg.image]
    ∧ ctxOf (runReq [REvent.mkCtx Target.image]) Target.image = true
    ∧ pendingOf (procOne (runReq [REvent.mkCtx Target.image, REvent.up ViewArg.image]))
        Target.image = false :=
  ⟨(updateView_debounce [REvent.mkCtx Target.image, REvent.up ViewArg.image] Target.image).1,
   (updateView_debounce [REvent.mkCtx Target.image, REvent.up ViewArg.image] Target.image).2.1
     (by decide),
   (updateView_debounce [REvent.mkCtx Target.image] Target.image).2.2.1 (by decide) (by decide),
   (updateView_debounce [REvent.mkCtx Target.image, REvent.up ViewArg.image] Target.image).2.2.2
     [] (by decide)⟩

/-- If the future slot holds no id below `N` and the id counter is at
least `N`, then every id consulted during any further events was either
already consulted or is at least `N`. -/
theorem stepFut_consulted_bound (N : Nat) :
    ∀ (es : List FEvent) (s : FutState),
      (s.future = none ∨ ∃ i e, s.future = some (i, e) ∧ N ≤ i) →
      N ≤ s.nextId →
      ∀ j ∈ (es.foldl stepFut s).consulted, j ∈ s.consulted ∨ N ≤ j := by
  intro es
  induction es with
  | nil =>
    intro s _ _ j hj
    exact Or.inl hj
  | cons e es ih =>
    intro s hf hn j hj
    rw [List.foldl_cons] at hj
    cases e with
    | showData d =>
      have hstep := ih (stepFut s (FEvent.showData d))
        (Or.inr ⟨s.nextId, findImageExtrema d, rfl, hn⟩)
        (Nat.le_succ_of_le hn) j hj
      exact hstep
    | clear =>
      exact ih (stepFut s FEvent.clear) (Or.inl rfl) hn j hj
    | draw auto =>
      cases auto with
      | false => exact ih (stepFut s (FEvent.draw false)) hf hn j hj
      | true =>
        cases hfv : s.future with
        | none =>
          have hsame : stepFut s (FEvent.draw true) = s := by
            simp [stepFut, hfv]
          rw [hsame] at hj
          exact ih s hf hn j hj
        | some p =>
          obtain ⟨i, e⟩ := p
          have hNi : N ≤ i := by
            cases hf with
            | inl h0 => rw [hfv] at h0; exact absurd h0 (by simp)
            | inr h0 =>
              obtain ⟨i', e', hs, hN⟩ := h0
              rw [hfv] at hs
              obtain ⟨hi', _⟩ := Prod.mk.injEq .. ▸ (Option.some.injEq .. ▸ hs)
              exact hi' ▸ hN
          have hstep : stepFut s (FEvent.draw true)
              = { s with future := none, extrema := e, extremaSrc := some i,
                         consulted := i :: s.consulted } := by
            simp [stepFut, hfv]
          rw [hstep] at hj
          have := ih { s with future := none, extrema := e, extremaSrc := some i,
                              consulted := i :: s.consulted } (Or.inl rfl) hn j hj
          cases this with
          | inl hmem =>
            cases List.mem_cons.mp hmem with
            | inl hji => exact Or.inr (hji ▸ hNi)
            | inr hjs => exact Or.inl hjs
          | inr hge => exact Or.inr hge

/-- The extrema-source ghost always points at a consulted id. -/
theorem stepFut_extremaSrc_consulted :
    ∀ (es : List FEvent) (s : FutState),
      (∀ j, s.extremaSrc = some j → j ∈ s.consulted) →
      ∀ j, (es.foldl stepFut s).extremaSrc = some j →
        j ∈ (es.foldl stepFut s).consulted := by
  intro es
  induction es with
  | nil =>
    intro s hs j hj
    exact hs j hj
  | cons e es ih =>
    intro s hs j hj
    apply ih (stepFut s e) ?_ j hj
    intro j' hj'
    cases e with
    | showData d =>
      simp only [stepFut] at hj' ⊢
      exact hs j' hj'
    | clear =>
      simp only [stepFut] at hj' ⊢
      exact hs j' hj'
    | draw auto =>
      cases auto with
      | false => exact hs j' hj'
      | true =>
        cases hfv : s.future with
        | none =>
          have hsame : stepFut s (FEvent.draw true) = s := by
            simp [stepFut, hfv]
          rw [hsame] at hj' ⊢
          exact hs j' hj'
        | some p =>
          obtain ⟨i, e⟩ := p
          have hstep : stepFut s (FEvent.draw true)
              = { s with future := none, extrema := e, extremaSrc := some i,
                         consulted := i :: s.consulted } := by
            simp [stepFut, hfv]
          rw [hstep] at hj' ⊢
          simp only [Option.some.injEq] at hj'
          subst hj'
          exact List.mem_cons_self _ _

/-- Appending the clearing call invalidates the future and changes nothing
else. -/
theorem runFut_append_clear (es : List FEvent) :
    runFut (es ++ [FEvent.clear]) = { runFut es with future := none } := by
  rw [runFut, List.foldl_append]
  rfl

/-- C5: in any trace `es1`, then `showImage` with empty data (the clearing
call), then `es2`, every id whose extrema future is consulted by an
`execImageDraw` over the whole trace was either consulted before the clear
completed or stamps an image shown after the clear (its id is at least the
id counter at the clearing call); moreover the cached extrema source is
always a consulted id.  Hence no future created for an image shown before
the clearing call is ever consulted afterwards, and later cached extrema
never reflect a pre-clear image. -/
theorem extremaFuture_not_consulted_after_clear (es1 es2 : List FEvent) (i : Nat) :
    (i ∈ (runFut (es1 ++ FEvent.clear :: es2)).consulted →
      i ∈ (runFut (es1 ++ [FEvent.clear])).consulted ∨ (runFut es1).nextId ≤ i)
    ∧ ((runFut (es1 ++ FEvent.clear :: es2)).extremaSrc = some i →
      i ∈ (runFut (es1 ++ FEvent.clear :: es2)).consulted) := by
  have hsplit : runFut (es1 ++ FEvent.clear :: es2)
      = es2.foldl stepFut (runFut (es1 ++ [FEvent.clear])) := by
    rw [runFut, runFut, ← List.foldl_append]
    congr 1
    simp
  constructor
  · intro hi
    rw [hsplit] at hi
    have hclear := runFut_append_clear es1
    have hbound := stepFut_consulted_bound (runFut es1).nextId es2
      (runFut (es1 ++ [FEvent.clear]))
      (Or.inl (by rw [hclear]))
      (by rw [hclear])
      i hi
    exact hbound
  · intro hi
    rw [hsplit] at hi ⊢
    apply stepFut_extremaSrc_consulted es2 _ ?_ i hi
    rw [runFut_append_clear es1]
    intro j hj
    have hgen : ∀ (l : List FEvent) (s : FutState),
        (∀ j', s.extremaSrc = some j' → j' ∈ s.consulted) →
        ∀ j', (l.foldl stepFut s).extremaSrc = some j' →
          j' ∈ (l.foldl stepFut s).consulted := stepFut_extremaSrc_consulted
    exact hgen es1 initFut (by intro j' hj'; simp [initFut] at hj') j hj

/-- C5 witness: show image 0, clear, show image 1, then an automatic-range
draw: the draw consults only image 1 (shown after the clear; the clear
point's id counter is 1), and the cached extrema source 1 is consulted. -/
theorem extremaFuture_not_consulted_after_clear_check :
    (1 ∈ (runFut ([FEvent.showData [3]] ++ [FEvent.clear])).consulted
      ∨ (runFut [FEvent.showData [3]]).nextId ≤ 1)
    ∧ 1 ∈ (runFut ([FEvent.showData [3]]
        ++ FEvent.clear :: [FEvent.showData [7, 2], FEvent.draw true])).consulted :=
  ⟨(extremaFuture_not_consulted_after_clear [FEvent.showData [3]]
      [FEvent.showData [7, 2], FEvent.draw true] 1).1 (by decide),
   (extremaFuture_not_consulted_after_clear [FEvent.showData [3]]
      [FEvent.showData [7, 2], FEvent.draw true] 1).2 (by decide)⟩

/-- `std::vector::resize(n, 0)` produces length `n`. -/
theorem resizeTo_length (l : List Nat) (n : Nat) : (resizeTo l n).length = n := by
  simp [resizeTo]
  omega

/-- `execHistoCalc` touches only the block-texture handle and the name
counter. -/
theorem execHistoCalc_fields (s : GpuState) :
    (execHistoCalc s).histogram = s.histogram
    ∧ (execHistoCalc s).histogramData = s.histogramData
    ∧ (execHistoCalc s).histogramBinCount = s.histogramBinCount
    ∧ (execHistoCalc s).imageData = s.imageData
    ∧ (execHistoCalc s).deleted = s.deleted := by
  unfold execHistoCalc
  cases s.histogramBlocks <;> simp

/-- Before the consolidate dispatch, the CPU-side histogram buffer is
exactly `binCount` zeros. -/
theorem execHistoConsolidatePre_histogramData (s : GpuState) :
    (execHistoConsolidatePre s).histogramData
      = List.replicate s.histogramBinCount 0 := by
  unfold execHistoConsolidatePre
  cases hh : s.histogram with
  | none =>
    by_cases hlen : s.histogramData.length ≠ s.histogramBinCount <;>
      simp_all [resizeTo_length]
  | some t =>
    by_cases hlen : s.histogramData.length ≠ s.histogramBinCount <;>
      simp_all [resizeTo_length]

/-- `execHistoConsolidate` deletes nothing. -/
theorem execHistoConsolidate_deleted (s : GpuState) (g : List Nat) :
    (execHistoConsolidate s g).deleted = s.deleted := by
  unfold execHistoConsolidate execHistoConsolidatePre
  cases s.histogram <;> simp

/-- `execHistoDraw` deletes nothing. -/
theorem execHistoDraw_deleted (s : GpuState) :
    (execHistoDraw s).deleted = s.deleted := by
  unfold execHistoDraw
  split
  · cases s.pointVao <;> simp
  · rfl

/-- `newImageAdopt` deletes nothing. -/
theorem newImageAdopt_deleted (d : List Nat) (w h : Int) (s : GpuState) :
    (newImageAdopt d w h s).deleted = s.deleted := by
  unfold newImageAdopt
  cases s.image <;> simp

/-- All deletions performed by `newImageSlot` happen in its teardown
phase. -/
theorem newImageSlot_deleted (d : List Nat) (w h : Int) (filt : Bool)
    (gpu : List Nat) (s : GpuState) :
    (newImageSlot d w h filt gpu s).deleted = (newImageTeardown d w h s).deleted := by
  unfold newImageSlot
  rw [execHistoDraw_deleted]
  by_cases hd : d = []
  · rw [if_neg (by simp [hd])]
  · rw [if_pos hd]
    rw [execHistoConsolidate_deleted, (execHistoCalc_fields _).2.2.2.2,
      newImageAdopt_deleted]

/-- The teardown phase of both slots leaves the retained image data
untouched when `delImage` is not among its calls. -/
theorem setBinCountTeardown_imageData (n : Nat) (s : GpuState) :
    (setBinCountTeardown n s).imageData = s.imageData := by
  unfold setBinCountTeardown delHistogram delHistogramBlocks
  cases hb : s.histogramBlocks <;> cases hh : s.histogram <;> simp [hb, hh]

/-- C6 counterexample: with no image loaded, `setHistogramBinCountSlot`
changing the bin count from 2 to 3 discards the GPU resources but leaves
the CPU-side histogram buffer at its stale 2-entry contents; no 3-entry
zero buffer ever results. -/
theorem setHistogramBinCount_no_image_keeps_buffer :
    (setHistogramBinCountSlot 3 [] clearedGpuState).histogramData = [7, 7]
    ∧ (setHistogramBinCountSlot 3 [] clearedGpuState).histogramData
        ≠ List.replicate 3 0 := by
  decide

/-- C6 (amended): when the requested bin count differs from the current
one and an image is loaded, `setHistogramBinCountSlot` factors through a
teardown state whose block and consolidated histogram handles are the
unallocated sentinel (with the old handles deleted), and the recomputation
starts from a CPU-side histogram buffer of exactly `n` zero entries; with
no image loaded the buffer is left unchanged until the next
consolidation. -/
theorem setHistogramBinCount_teardown_and_zero (n : Nat) (gpuHist : List Nat)
    (s : GpuState) (hne : n ≠ s.histogramBinCount) (himg : s.imageData ≠ []) :
    (setBinCountTeardown n s).histogramBlocks = none
    ∧ (setBinCountTeardown n s).histogram = none
    ∧ (∀ b, s.histogramBlocks = some b → b ∈ (setBinCountTeardown n s).deleted)
    ∧ (∀ t, s.histogram = some t → t ∈ (setBinCountTeardown n s).deleted)
    ∧ (execHistoConsolidatePre (execHistoCalc (setBinCountTeardown n s))).histogramData
        = List.replicate n 0
    ∧ setHistogramBinCountSlot n gpuHist s
        = execHistoDraw (execHistoConsolidate (execHistoCalc (setBinCountTeardown n s)) gpuHist) := by
  refine ⟨?_, ?_, ?_, ?_, ?_, ?_⟩
  · unfold setBinCountTeardown delHistogram delHistogramBlocks
    cases hb : s.histogramBlocks <;> cases hh : s.histogram <;> simp [hb, hh]
  · unfold setBinCountTeardown delHistogram delHistogramBlocks
    cases hb : s.histogramBlocks <;> cases hh : s.histogram <;> simp [hb, hh]
  · intro b hb
    unfold setBinCountTeardown delHistogram delHistogramBlocks
    rw [hb]
    cases hh : s.histogram <;> simp [hh]
  · intro t ht
    unfold setBinCountTeardown delHistogram delHistogramBlocks
    cases hb : s.histogramBlocks <;> simp [hb, ht]
  · rw [execHistoConsolidatePre_histogramData,
      (execHistoCalc_fields (setBinCountTeardown n s)).2.2.1]
    rfl
  · unfold setHistogramBinCountSlot
    rw [if_pos hne,
      if_pos (by rw [setBinCountTeardown_imageData]; exact himg)]

/-- C6 witness: changing the bin count from 2 to 3 on the loaded state
tears down handles 11 and 12 and zeroes a 3-entry buffer before the
recomputation. -/
theorem setHistogramBinCount_teardown_and_zero_check :
    (setBinCountTeardown 3 loadedGpuState).histogramBlocks = none
    ∧ (setBinCountTeardown 3 loadedGpuState).histogram = none
    ∧ 11 ∈ (setBinCountTeardown 3 loadedGpuState).deleted
    ∧ 12 ∈ (setBinCountTeardown 3 loadedGpuState).deleted
    ∧ (execHistoConsolidatePre (execHistoCalc (setBinCountTeardown 3 loadedGpuState))).histogramData
        = List.replicate 3 0
    ∧ setHistogramBinCountSlot 3 [1, 2, 3] loadedGpuState
        = execHistoDraw (execHistoConsolidate (execHistoCalc (setBinCountTeardown 3 loadedGpuState)) [1, 2, 3]) :=
  ⟨(setHistogramBinCount_teardown_and_zero 3 [1, 2, 3] loadedGpuState (by decide) (by decide)).1,
   (setHistogramBinCount_teardown_and_zero 3 [1, 2, 3] loadedGpuState (by decide) (by decide)).2.1,
   (setHistogramBinCount_teardown_and_zero 3 [1, 2, 3] loadedGpuState (by decide) (by decide)).2.2.1 11 (by decide),
   (setHistogramBinCount_teardown_and_zero 3 [1, 2, 3] loadedGpuState (by decide) (by decide)).2.2.2.1 12 (by decide),
   (setHistogramBinCount_teardown_and_zero 3 [1, 2, 3] loadedGpuState (by decide) (by decide)).2.2.2.2.1,
   (setHistogramBinCount_teardown_and_zero 3 [1, 2, 3] loadedGpuState (by decide) (by decide)).2.2.2.2.2⟩

/-- C7 counterexample: replacing a loaded 1×1 image by a new non-empty
image of the same size deletes nothing: the old image texture handle 10 is
reused and no delete call is recorded, refuting "whenever a previous image
is present and the request replaces it (new data non-empty), the old image
texture and block-histogram texture are deleted". -/
theorem newImageSlot_same_size_reuses_texture :
    (newImageSlot [2] 1 1 false [0, 1] loadedGpuState).deleted = []
    ∧ (newImageSlot [2] 1 1 false [0, 1] loadedGpuState).image = some 10 := by
  decide

/-- C7 (amended): when a previous image is present and the request either
clears it (new data empty) or changes the image size, `newImageSlot`'s
teardown deletes the old image texture and the block-histogram texture
(when allocated), resets their handles to the unallocated sentinel, and
the deletions are visible in the slot's final state; a same-size non-empty
replacement skips the teardown and reuses the textures. -/
theorem newImageSlot_teardown (d : List Nat) (w h : Int) (filt : Bool)
    (gpuHist : List Nat) (s : GpuState) (hold : s.imageData ≠ [])
    (hcase : d = [] ∨ ¬(s.imageW = w ∧ s.imageH = h)) :
    (newImageTeardown d w h s).image = none
    ∧ (newImageTeardown d w h s).histogramBlocks = none
    ∧ (∀ t, s.image = some t → t ∈ (newImageTeardown d w h s).deleted
        ∧ t ∈ (newImageSlot d w h filt gpuHist s).deleted)
    ∧ (∀ b, s.histogramBlocks = some b → b ∈ (newImageTeardown d w h s).deleted
        ∧ b ∈ (newImageSlot d w h filt gpuHist s).deleted) := by
  have hcond : s.imageData ≠ [] ∧ (d = [] ∨ ¬(s.imageW = w ∧ s.imageH = h)) :=
    ⟨hold, hcase⟩
  refine ⟨?_, ?_, ?_, ?_⟩
  · unfold newImageTeardown delImage delHistogramBlocks
    rw [if_pos hcond]
    cases hi : s.image <;> cases hb : s.histogramBlocks <;> simp [hi, hb]
  · unfold newImageTeardown delImage delHistogramBlocks
    rw [if_pos hcond]
    cases hi : s.image <;> cases hb : s.histogramBlocks <;> simp [hi, hb]
  · intro t ht
    have hmem : t ∈ (newImageTeardown d w h s).deleted := by
      unfold newImageTeardown delImage delHistogramBlocks
      rw [if_pos hcond, ht]
      cases hb : s.histogramBlocks <;> simp [hb]
    exact ⟨hmem, by rw [newImageSlot_deleted]; exact hmem⟩
  · intro b hb
    have hmem : b ∈ (newImageTeardown d w h s).deleted := by
      unfold newImageTeardown delImage delHistogramBlocks
      rw [if_pos hcond]
      cases hi : s.image <;> simp [hi, hb]
    exact ⟨hmem, by rw [newImageSlot_deleted]; exact hmem⟩

/-- C7 witness: clearing the loaded 1×1 image tears down textures 10 and
11, resets both handles, and the deletions are visible in the slot's final
state. -/
theorem newImageSlot_teardown_check :
    (newImageTeardown [] 0 0 loadedGpuState).image = none
    ∧ (newImageTeardown [] 0 0 loadedGpuState).histogramBlocks = none
    ∧ (10 ∈ (newImageTeardown [] 0 0 loadedGpuState).deleted
        ∧ 10 ∈ (newImageSlot [] 0 0 false [] loadedGpuState).deleted)
    ∧ (11 ∈ (newImageTeardown [] 0 0 loadedGpuState).deleted
        ∧ 11 ∈ (newImageSlot [] 0 0 false [] loadedGpuState).deleted) :=
  ⟨(newImageSlot_teardown [] 0 0 false [] loadedGpuState (by decide) (Or.inl rfl)).1,
   (newImageSlot_teardown [] 0 0 false [] loadedGpuState (by decide) (Or.inl rfl)).2.1,
   (newImageSlot_teardown [] 0 0 false [] loadedGpuState (by decide) (Or.inl rfl)).2.2.1 10 (by decide),
   (newImageSlot_teardown [] 0 0 false [] loadedGpuState (by decide) (Or.inl rfl)).2.2.2 11 (by decide)⟩

/-- After the uniform-diffing section all three caches hold the values of
this draw. -/
theorem setGtp_fields (p : ImageDrawProg) (mn mx g : Nat) :
    (setGtpUniforms p mn mx g).gtpMin = some mn
    ∧ (setGtpUniforms p mn mx g).gtpMax = some mx
    ∧ (setGtpUniforms p mn mx g).gtpGamma = some g := by
  simp only [setGtpUniforms]
  split_ifs <;> simp_all

/-- The upload log grows by exactly the uploads of the values that
differed from their caches, in min, max, gamma order. -/
theorem setGtp_uploads (p : ImageDrawProg) (mn mx g : Nat) :
    (setGtpUniforms p mn mx g).uploads
      = ((p.uploads ++ (if p.gtpMin = some mn then [] else [GtpUpload.minU mn]))
          ++ (if p.gtpMax = some mx then [] else [GtpUpload.maxU mx]))
          ++ (if p.gtpGamma = some g then [] else [GtpUpload.gammaU g]) := by
  simp only [setGtpUniforms]
  split_ifs <;> simp_all

/-- The GPU-bound gamma value after the diffing section: unchanged on a
skip, the uploaded value otherwise. -/
theorem setGtp_bound (p : ImageDrawProg) (mn mx g : Nat) :
    (setGtpUniforms p mn mx g).boundGamma
      = (if p.gtpGamma = some g then p.boundGamma else some g) := by
  simp only [setGtpUniforms]
  split_ifs <;> simp_all

/-- A gamma upload is appended exactly when the new gamma differs from the
cached one. -/
theorem setGtp_gammaUploads (p : ImageDrawProg) (mn mx g : Nat) :
    gammaUploads (setGtpUniforms p mn mx g).uploads
      = gammaUploads p.uploads ++ (if p.gtpGamma = some g then [] else [g]) := by
  rw [setGtp_uploads]
  by_cases h1 : p.gtpMin = some mn <;> by_cases h2 : p.gtpMax = some mx <;>
    by_cases h3 : p.gtpGamma = some g <;>
      simp [h1, h2, h3, gammaUploads, List.filterMap_append]

/-- A min upload is appended exactly when the new min differs from the
cached one. -/
theorem setGtp_minUploads (p : ImageDrawProg) (mn mx g : Nat) :
    minUploads (setGtpUniforms p mn mx g).uploads
      = minUploads p.uploads ++ (if p.gtpMin = some mn then [] else [mn]) := by
  rw [setGtp_uploads]
  by_cases h1 : p.gtpMin = some mn <;> by_cases h2 : p.gtpMax = some mx <;>
    by_cases h3 : p.gtpGamma = some g <;>
      simp [h1, h2, h3, minUploads, List.filterMap_append]

/-- A max upload is appended exactly when the new max differs from the
cached one. -/
theorem setGtp_maxUploads (p : ImageDrawProg) (mn mx g : Nat) :
    maxUploads (setGtpUniforms p mn mx g).uploads
      = maxUploads p.uploads ++ (if p.gtpMax = some mx then [] else [mx]) := by
  rw [setGtp_uploads]
  by_cases h1 : p.gtpMin = some mn <;> by_cases h2 : p.gtpMax = some mx <;>
    by_cases h3 : p.gtpGamma = some g <;>
      simp [h1, h2, h3, maxUploads, List.filterMap_append]

/-- C9: in `execImageDraw`'s uniform section a gamma (resp. min, max)
upload is issued iff the new value differs from the program's cached
value; the cache always ends up holding the drawn value; when the cache
agreed with the GPU-bound value before the draw it still does afterwards;
an immediately repeated draw with the same gamma issues no further gamma
upload; and from a freshly built program two consecutive draws with the
same gamma perform exactly one gamma upload in total. -/
theorem gtpUniform_upload_caching (p : ImageDrawProg) (mn mx g : Nat) :
    gammaUploads (setGtpUniforms p mn mx g).uploads
      = gammaUploads p.uploads ++ (if p.gtpGamma = some g then [] else [g])
    ∧ minUploads (setGtpUniforms p mn mx g).uploads
      = minUploads p.uploads ++ (if p.gtpMin = some mn then [] else [mn])
    ∧ maxUploads (setGtpUniforms p mn mx g).uploads
      = maxUploads p.uploads ++ (if p.gtpMax = some mx then [] else [mx])
    ∧ (setGtpUniforms p mn mx g).gtpGamma = some g
    ∧ (p.gtpGamma = p.boundGamma →
        (setGtpUniforms p mn mx g).gtpGamma = (setGtpUniforms p mn mx g).boundGamma)
    ∧ gammaUploads (setGtpUniforms (setGtpUniforms p mn mx g) mn mx g).uploads
      = gammaUploads (setGtpUniforms p mn mx g).uploads
    ∧ gammaUploads (setGtpUniforms (setGtpUniforms initImageDrawProg mn mx g) mn mx g).uploads
      = [g] := by
  refine ⟨setGtp_gammaUploads p mn mx g, setGtp_minUploads p mn mx g,
    setGtp_maxUploads p mn mx g, (setGtp_fields p mn mx g).2.2, ?_, ?_, ?_⟩
  · intro hpb
    rw [(setGtp_fields p mn mx g).2.2, setGtp_bound]
    by_cases h3 : p.gtpGamma = some g
    · rw [if_pos h3, ← hpb, h3]
    · rw [if_neg h3]
  · rw [setGtp_gammaUploads (setGtpUniforms p mn mx g) mn mx g,
      (setGtp_fields p mn mx g).2.2]
    simp
  · rw [setGtp_gammaUploads (setGtpUniforms initImageDrawProg mn mx g) mn mx g,
      (setGtp_fields initImageDrawProg mn mx g).2.2,
      setGtp_gammaUploads initImageDrawProg mn mx g]
    simp [initImageDrawProg, gammaUploads]

/-- C9 witness: from the fresh program, drawing twice with gamma 3 uploads
gamma exactly once, and the cache matches the GPU-bound value. -/
theorem gtpUniform_upload_caching_check :
    gammaUploads (setGtpUniforms initImageDrawProg 1 2 3).uploads
      = gammaUploads initImageDrawProg.uploads
          ++ (if initImageDrawProg.gtpGamma = some 3 then [] else [3])
    ∧ (setGtpUniforms initImageDrawProg 1 2 3).gtpGamma
        = (setGtpUniforms initImageDrawProg 1 2 3).boundGamma
    ∧ gammaUploads (setGtpUniforms (setGtpUniforms initImageDrawProg 1 2 3) 1 2 3).uploads
        = [3] :=
  ⟨(gtpUniform_upload_caching initImageDrawProg 1 2 3).1,
   (gtpUniform_upload_caching initImageDrawProg 1 2 3).2.2.2.2.1 (by decide),
   (gtpUniform_upload_caching initImageDrawProg 1 2 3).2.2.2.2.2.2⟩
